import Mathlib

/-!
Verification of the `simulation` crate (deterministic simulation testing
substrate) against its specification.

The crate's file `src/simulation/src/lib.rs` contains the public interface:
the `Error` enum with its `Display` and `error::Error` impls, the
`Environment` / `Network` / `TcpStream` / `TcpListener` traits (including the
provided method `delay_from`), and the free function `spawn_with_result`.
The deterministic scheduler, virtual clock, timer queue, in-memory network and
fault injector live in the crate's `deterministic` module, which is declared
(`pub mod deterministic;`) but whose code is not part of the sources at hand;
those components are modelled here from the specification's prose, with each
such definition marked `Modelled from the spec:`.

Virtual instants and durations are modelled as natural numbers; bytes as
natural numbers; addresses as natural numbers.
-/

namespace Simulation

/-! ## Time and the environment facade (from `src/simulation/src/lib.rs`) -/

/-- Model of `tokio_timer::Delay`: a delay future characterised by the deadline
after which it completes (`Environment::delay` returns such a future). -/
structure Delay where
  deadline : Nat
  deriving DecidableEq, Repr

/-- Model of an `Environment` handle as far as the time capability goes:
`now` is the current instant returned by `Environment::now`. -/
structure Env where
  now : Nat
  deriving DecidableEq, Repr

/-- `Environment::delay` (trait method): returns a delay future which completes
after the provided instant. -/
def Env.delay (_e : Env) (deadline : Nat) : Delay :=
  { deadline := deadline }

/-- `Environment::delay_from` (provided trait method), translated from
`src/simulation/src/lib.rs` lines 232-235: it reads `now` once and calls
`delay(now + from_now)`. `from_now` is a `Duration`, a non-negative magnitude
(modelled as `Nat`). -/
def Env.delay_from (e : Env) (from_now : Nat) : Delay :=
  let now := e.now
  e.delay (now + from_now)

/-! ## The `Error` enum (from `src/simulation/src/lib.rs` lines 166-197)

The three variants wrap external source errors (`tokio_executor::SpawnError`,
`std::io::Error`, `tokio_executor::current_thread::RunError`); each wrapped
value is modelled by its debug representation, a `String`. -/

/-- The crate's `Error` enum: `Spawn`, `RuntimeBuild`, `CurrentThreadRun`,
each with a `source` field holding the underlying error. -/
inductive Error where
  | Spawn (source : String)
  | RuntimeBuild (source : String)
  | CurrentThreadRun (source : String)
  deriving DecidableEq, Repr

/-- The `impl error::Error for Error` `source` method: every variant returns
`Some` of its wrapped source error. -/
def Error.sourceErr : Error → Option String
  | .Spawn source => some source
  | .RuntimeBuild source => some source
  | .CurrentThreadRun source => some source

/-- The `impl fmt::Display for Error` `fmt` method: the format string produced
for each variant (the wrapped error's debug representation is spliced in). -/
def Error.display : Error → String
  | .Spawn source => "Spawn error: " ++ source
  | .RuntimeBuild source => "Construction error: " ++ source
  | .CurrentThreadRun source => "Error: " ++ source

/-! ## Spawn rejection (spec-modelled) -/

/-- Modelled from the spec: the cooperative scheduler's spawn path. The
scheduler, which lives in the crate's `deterministic` module (not among the
sources), may reject a task, e.g. when it is shutting down; in that case the
rejection is wrapped in `Error::Spawn` and returned to the caller of spawn.
`rejection` is `some src` when the executor rejects the task with underlying
error `src`, and `none` when the task is accepted. -/
def schedulerSpawn (rejection : Option String) : Except Error Unit :=
  match rejection with
  | some src => .error (.Spawn src)
  | none => .ok ()

/-! ## Timeout race (spec-modelled) -/

/-- Outcome of a `timeout(op, T)` composition: either the inner operation's
value or a timeout error. -/
inductive TimeoutOut (α : Type) where
  | value (v : α)
  | timedOut
  deriving DecidableEq, Repr

/-- Modelled from the spec: the race inside `Environment::timeout` (the
deterministic realisation of `tokio_timer::Timeout` is not among the sources).
The inner operation would complete at virtual time `t1` with value `v`; the
timer fires at `t2`. Whichever completes first wins, ties resolve to timeout.
The second component records whether the inner operation was cancelled/dropped.
The result being a single value is what rules out double-completion. -/
def timeoutRace {α : Type} (t1 t2 : Nat) (v : α) : TimeoutOut α × Bool :=
  if t1 < t2 then (.value v, false) else (.timedOut, true)

/-! ## `spawn_with_result` and the remote handle
(`src/simulation/src/lib.rs` lines 268-277)

`spawn_with_result` calls `future.remote_handle()` from the `futures` crate,
spawns the remote half on the environment and returns the handle half. The
remote/handle pair from `futures::future::remote_handle` shares a one-shot
side-channel; the definitions below translate that external dependency's
behaviour: `Remote::poll` first checks whether the handle was dropped
(`poll_canceled`) and, if so, completes immediately without polling the
wrapped future (dropping it); otherwise it drives the wrapped future and sends
the output on the channel. `RemoteHandle::poll` only reads the channel. -/

/-- Shared state of a remote/handle pair for a wrapped future of output type
`α`: whether the handle has been dropped, and the output sent so far. -/
structure RemoteState (α : Type) where
  handleDropped : Bool
  sent : Option α
  deriving DecidableEq, Repr

/-- One completed poll of the remote half whose wrapped future would finish
with output `v`: if the handle was dropped the remote bails out without
running the wrapped future; otherwise the wrapped future runs and its output
is sent. The second component records whether the wrapped future was run. -/
def pollRemote {α : Type} (v : α) (s : RemoteState α) : RemoteState α × Bool :=
  if s.handleDropped then (s, false)
  else ({ s with sent := some v }, true)

/-- Poll of the handle half: it only retrieves what was sent on the
side-channel. -/
def handlePoll {α : Type} (s : RemoteState α) : Option α :=
  s.sent

/-- `spawn_with_result` (translated from `src/simulation/src/lib.rs` lines
268-277): split the future into the remote half, which is spawned and owned by
the scheduler, and the handle half, which is returned to the caller. -/
def spawn_with_result (α : Type) (v : α) :
    (RemoteState α → RemoteState α × Bool) × (RemoteState α → Option α) :=
  (pollRemote v, handlePoll)

/-! ## In-memory network (spec-modelled) -/

/-- The network error kinds named by the spec for the in-memory network. -/
inductive IoErr where
  | addrInUse
  | connRefused
  | brokenPipe
  deriving DecidableEq, Repr

/-- Modelled from the spec: the connection registry of the deterministic
runtime's in-memory network (its code is in the `deterministic` module, not
among the sources). `bound` is the set of addresses with an active listener;
`pending` maps each bound address to its FIFO queue of pending inbound
connections (identified by connection ids); `nextConn` is the next fresh
connection id. -/
structure Registry where
  bound : List Nat
  pending : List (Nat × Nat)
  nextConn : Nat
  deriving DecidableEq, Repr

/-- Modelled from the spec: `bind(addr)` fails with an ordinary
already-in-use I/O error if a listener is already bound to `addr`; otherwise
it registers a listener with a fresh empty pending queue. -/
def Registry.bind (r : Registry) (a : Nat) : Except IoErr Registry :=
  if a ∈ r.bound then .error .addrInUse
  else .ok { r with bound := a :: r.bound }

/-- Modelled from the spec: `connect(addr)` fails immediately with a
connection-refused I/O error if no listener is registered for `addr`;
otherwise it creates the paired stream, enqueues the listener-side endpoint
and returns the connector-side endpoint (both named by a fresh id). -/
def Registry.connect (r : Registry) (a : Nat) : Except IoErr (Registry × Nat) :=
  if a ∈ r.bound then
    .ok ({ r with pending := r.pending ++ [(a, r.nextConn)], nextConn := r.nextConn + 1 },
         r.nextConn)
  else .error .connRefused

/-- Modelled from the spec: `accept` on the listener bound to `a` dequeues the
first pending connection for `a` (FIFO); `none` means it would suspend. -/
def Registry.accept (r : Registry) (a : Nat) : Option (Registry × Nat) :=
  match r.pending.find? (fun p => p.1 == a) with
  | some p => some ({ r with pending := r.pending.erase p }, p.2)
  | none => none

/-- Modelled from the spec: a simulated stream, i.e. one established
connection: a pair of directional byte buffers shared by the two endpoints
`A` and `B`, plus the shared closed flag that either side's close sets. -/
structure Conn where
  aToB : List Nat
  bToA : List Nat
  closed : Bool
  deriving DecidableEq, Repr

/-- The two endpoints of a connection. -/
inductive Side where
  | A
  | B
  deriving DecidableEq, Repr

/-- The bytes currently in flight toward the given endpoint. -/
def inbox : Side → Conn → List Nat
  | .A, c => c.bToA
  | .B, c => c.aToB

/-- Modelled from the spec: a write on an endpoint appends the bytes to the
peer's read buffer; on a closed connection it fails with an ordinary I/O
error (broken pipe), never a panic. -/
def Conn.write (c : Conn) (side : Side) (data : List Nat) : Except IoErr Conn :=
  if c.closed then .error .brokenPipe
  else match side with
    | .A => .ok { c with aToB := c.aToB ++ data }
    | .B => .ok { c with bToA := c.bToA ++ data }

/-- Result of a read: the available bytes, or end-of-stream. -/
inductive ReadRes where
  | bytes (bs : List Nat)
  | eof
  deriving DecidableEq, Repr

/-- Modelled from the spec: a read on an endpoint returns the available bytes
in order (draining the buffer), returns end-of-stream when the buffer is empty
and the connection is closed, and would suspend (`none`) when the buffer is
empty but the connection is open. -/
def Conn.read (c : Conn) (side : Side) : Option (ReadRes × Conn) :=
  let b := inbox side c
  if b.isEmpty then
    if c.closed then some (.eof, c) else none
  else
    some (.bytes b, match side with
      | .A => { c with bToA := [] }
      | .B => { c with aToB := [] })

/-- Modelled from the spec: either endpoint closing marks the shared state
closed. -/
def Conn.close (c : Conn) : Conn :=
  { c with closed := true }

/-! ## Fault injector (spec-modelled) -/

/-- Modelled from the spec: one step of the deterministic pseudo-random
sequence derived from the seed (a linear congruential step; the exact
generator is a design choice the spec leaves open, any deterministic function
of the previous state serves the model). -/
def rngNext (x : Nat) : Nat :=
  (x * 6364136223846793005 + 1442695040888963407) % (2 ^ 64)

/-- An application-level stream operation: a read or a write on the stream
with the given id. -/
inductive NAct where
  | read (sid : Nat)
  | write (sid : Nat)
  deriving DecidableEq, Repr

/-- A scheduled micro-step of a run: either an application task performs a
stream operation, or the fault-injector task (the one returned by
`latency_fault()`) performs one perturbation step on the stream with the
given id. A run in which the injector task is never spawned contains no
`injStep`. -/
inductive MStep where
  | appOp (a : NAct)
  | injStep (sid : Nat)
  deriving DecidableEq, Repr

/-- Modelled from the spec: the fault state the injector maintains over the
live streams: per-stream injected extra latency, the set of streams flipped
into the disconnected state, and the pseudo-random stream position. At
runtime startup no fault has been injected. -/
structure FaultState where
  latency : List (Nat × Nat)
  disconnected : List Nat
  rng : Nat
  deriving DecidableEq, Repr

/-- The injected extra latency currently scheduled for stream `sid` (zero when
none has been injected). -/
def lookupLatency (l : List (Nat × Nat)) (sid : Nat) : Nat :=
  match l.find? (fun p => p.1 == sid) with
  | some p => p.2
  | none => 0

/-- What a stream operation observes: the stream id, the injected extra
latency it suffers, and whether it sees an injected disconnect. -/
structure Obs where
  sid : Nat
  extraLatency : Nat
  disconnect : Bool
  deriving DecidableEq, Repr

/-- Modelled from the spec: one micro-step. An application read/write observes
the current fault state of its stream; an injector step draws the next
pseudo-random value and uses it to schedule extra latency and possibly flip
the stream into the disconnected state. Only injector steps mutate the fault
state. -/
def fstep (s : FaultState) : MStep → FaultState × Option Obs
  | .appOp (.read sid) =>
      (s, some ⟨sid, lookupLatency s.latency sid, decide (sid ∈ s.disconnected)⟩)
  | .appOp (.write sid) =>
      (s, some ⟨sid, lookupLatency s.latency sid, decide (sid ∈ s.disconnected)⟩)
  | .injStep sid =>
      let x := rngNext s.rng
      ({ latency := (sid, x % 100) :: s.latency,
         disconnected := if x % 2 == 0 then sid :: s.disconnected else s.disconnected,
         rng := x }, none)

/-- Run a schedule of micro-steps from a fault state, collecting the
observations of all stream operations. -/
def frun (s : FaultState) : List MStep → FaultState × List Obs
  | [] => (s, [])
  | m :: ms =>
      let p := fstep s m
      let q := frun p.1 ms
      (q.1, match p.2 with
        | some ob => ob :: q.2
        | none => q.2)

/-! ## Cooperative scheduler, virtual clock and timer queue (spec-modelled)

The deterministic runtime's scheduler lives in the crate's `deterministic`
module, not among the sources; the model below follows the spec: a
single-threaded cooperative scheduler with a FIFO runnable queue, a virtual
clock that advances only when no task is runnable and then jumps exactly to
the minimum pending deadline, a timer queue whose equal-deadline entries fire
in registration order, and fault decisions drawn from the seeded
pseudo-random sequence. -/

/-- Virtual instants (also used as durations). -/
abbrev Time := Nat

/-- Task identifiers. -/
abbrev TaskId := Nat

/-- A suspension-point command of an application task: schedule a delay of the
given duration from now (registering a timer and suspending), or — for the
fault-injector task — draw the next fault decision for the given stream. -/
inductive Cmd where
  | delayFrom (d : Time)
  | drawFault (sid : Nat)
  deriving DecidableEq, Repr

/-- Modelled from the spec: the events of a run that the determinism property
quantifies over: task completions (with the virtual-clock value), timer
wakes (task, deadline, clock value at the wake), clock advances, and fault
decisions (stream, extra latency, disconnect flag). -/
inductive Event where
  | completed (tid : TaskId) (t : Time)
  | woken (tid : TaskId) (deadline : Time) (t : Time)
  | advanced (t : Time)
  | fault (tid : TaskId) (sid : Nat) (delta : Nat) (disconnect : Bool)
  deriving DecidableEq, Repr

/-- Modelled from the spec: the state of one deterministic runtime instance:
the virtual clock, the FIFO queue of runnable task ids, the remaining program
of each task, the timer queue in registration order (deadline, waiter), the
pseudo-random stream position, and the trace of events so far (newest
first). -/
structure SimState where
  clock : Time
  runnable : List TaskId
  progs : List (TaskId × List Cmd)
  timers : List (Time × TaskId)
  rng : Nat
  trace : List Event
  deriving DecidableEq, Repr

/-- The remaining program of task `tid` (a task with no entry has completed
its program). -/
def lookupProg (ps : List (TaskId × List Cmd)) (tid : TaskId) : List Cmd :=
  match ps.find? (fun p => p.1 == tid) with
  | some p => p.2
  | none => []

/-- Replace the program of task `tid`. -/
def setProg (ps : List (TaskId × List Cmd)) (tid : TaskId) (k : List Cmd) :
    List (TaskId × List Cmd) :=
  ps.map (fun p => if p.1 == tid then (tid, k) else p)

/-- The minimum pending deadline of the timer queue. -/
def minDeadline : List (Time × TaskId) → Option Time
  | [] => none
  | (d, _) :: ts =>
      some (match minDeadline ts with
        | none => d
        | some m => min d m)

/-- The timer entries due at time `m`, in registration order. -/
def dueTimers (ts : List (Time × TaskId)) (m : Time) : List (Time × TaskId) :=
  ts.filter (fun p => decide (p.1 ≤ m))

/-- The timer entries still pending after time `m`. -/
def laterTimers (ts : List (Time × TaskId)) (m : Time) : List (Time × TaskId) :=
  ts.filter (fun p => decide (m < p.1))

/-- Modelled from the spec: one scheduler step as an executable function.
With a runnable task at the head of the FIFO queue, resume it: an exhausted
program completes the task (recording the clock value); a `delayFrom d`
registers a timer at `clock + d` and suspends the task; a `drawFault`
advances the pseudo-random stream and records the fault decision. With no
runnable task, advance the clock exactly to the minimum pending deadline and
wake every due timer in registration order; with no pending timer either, the
run is over (`none`). -/
def stepF (s : SimState) : Option SimState :=
  match s.runnable with
  | tid :: rest =>
    match lookupProg s.progs tid with
    | [] =>
        some { s with runnable := rest,
                      trace := .completed tid s.clock :: s.trace }
    | Cmd.delayFrom d :: k =>
        some { s with runnable := rest, progs := setProg s.progs tid k,
                      timers := s.timers ++ [(s.clock + d, tid)] }
    | Cmd.drawFault sid :: k =>
        some { s with runnable := rest ++ [tid], progs := setProg s.progs tid k,
                      rng := rngNext s.rng,
                      trace := .fault tid sid (rngNext s.rng % 100)
                        (rngNext s.rng % 2 == 0) :: s.trace }
  | [] =>
    match minDeadline s.timers with
    | none => none
    | some m =>
        some { s with clock := m,
                      runnable := (dueTimers s.timers m).map (fun p => p.2),
                      timers := laterTimers s.timers m,
                      trace := (dueTimers s.timers m).map (fun p => Event.woken p.2 p.1 m)
                        ++ Event.advanced m :: s.trace }

/-- Modelled from the spec: the scheduler's execution policy as a small-step
relation, stated independently of `stepF`. Exactly the four situations of the
prose: resuming the head runnable task on an exhausted program / a delay / a
fault draw, and advancing the idle clock to the minimum pending deadline. -/
inductive Step : SimState → SimState → Prop where
  | complete (s : SimState) (tid : TaskId) (rest : List TaskId)
      (hr : s.runnable = tid :: rest) (hp : lookupProg s.progs tid = []) :
      Step s { s with runnable := rest,
                      trace := .completed tid s.clock :: s.trace }
  | delay (s : SimState) (tid : TaskId) (rest : List TaskId) (d : Time) (k : List Cmd)
      (hr : s.runnable = tid :: rest) (hp : lookupProg s.progs tid = Cmd.delayFrom d :: k) :
      Step s { s with runnable := rest, progs := setProg s.progs tid k,
                      timers := s.timers ++ [(s.clock + d, tid)] }
  | fault (s : SimState) (tid : TaskId) (rest : List TaskId) (sid : Nat) (k : List Cmd)
      (hr : s.runnable = tid :: rest) (hp : lookupProg s.progs tid = Cmd.drawFault sid :: k) :
      Step s { s with runnable := rest ++ [tid], progs := setProg s.progs tid k,
                      rng := rngNext s.rng,
                      trace := .fault tid sid (rngNext s.rng % 100)
                        (rngNext s.rng % 2 == 0) :: s.trace }
  | advance (s : SimState) (m : Time)
      (hr : s.runnable = []) (hm : minDeadline s.timers = some m) :
      Step s { s with clock := m,
                      runnable := (dueTimers s.timers m).map (fun p => p.2),
                      timers := laterTimers s.timers m,
                      trace := (dueTimers s.timers m).map (fun p => Event.woken p.2 p.1 m)
                        ++ Event.advanced m :: s.trace }

/-- A state from which no scheduler step is possible. -/
def Stuck (s : SimState) : Prop :=
  ∀ t, ¬ Step s t

/-- Reflexive-transitive closure of the scheduler step: a run. -/
inductive Runs : SimState → SimState → Prop where
  | refl (s : SimState) : Runs s s
  | step {s t u : SimState} : Step s t → Runs t u → Runs s u

/-- Execute at most `n` scheduler steps. -/
def runN : Nat → SimState → SimState
  | 0, s => s
  | n + 1, s =>
      match stepF s with
      | none => s
      | some t => runN n t

/-- The initial state of a runtime instance: clock zero, every submitted task
runnable in submission order, empty timer queue, pseudo-random position at the
seed, empty trace. -/
def initState (seed : Nat) (progs : List (TaskId × List Cmd)) : SimState :=
  { clock := 0, runnable := progs.map (fun p => p.1), progs := progs,
    timers := [], rng := seed, trace := [] }

/-- The virtual instant recorded in the trace for task `tid`'s completion. -/
def completedAt : List Event → TaskId → Option Time
  | [], _ => none
  | .completed tid2 t :: tr, tid => if tid2 == tid then some t else completedAt tr tid
  | _ :: tr, tid => completedAt tr tid

/-- The ordering scenario of the spec: two tasks started at the same virtual
instant, scheduling delays of 10 and 30 seconds respectively. -/
def orderingInit (seed : Nat) : SimState :=
  initState seed [(0, [Cmd.delayFrom 10]), (1, [Cmd.delayFrom 30])]

end Simulation

namespace Simulation

/-! ## Theorems -/

/-- C5: for every environment handle `e` and duration `d`, `e.delay_from d` is
exactly `e.delay (t + d)` where `t` is the single value of `e.now` read at the
call, and the returned awaitable completes after that instant (its deadline is
`e.now + d`). -/
theorem delay_from_is_delay_of_now_plus (e : Env) (d : Nat) :
    e.delay_from d = e.delay (e.now + d) ∧ (e.delay_from d).deadline = e.now + d := by
  constructor
  · rfl
  · rfl

/-- Helper: appending anything to a non-empty string stays non-empty. -/
theorem string_append_ne_empty (s t : String) (h : s.length ≠ 0) : s ++ t ≠ "" := by
  intro he
  have hl := congrArg String.length he
  rw [String.length_append] at hl
  have h0 : ("" : String).length = 0 := rfl
  rw [h0] at hl
  omega

/-- C10: for every value of the `Error` enum, the `error::Error::source`
method returns `Some` of the wrapped underlying error (never `None`), and
`Display` produces a description for every variant (a total function yielding
a non-empty string), so no error's cause is dropped. -/
theorem error_source_isSome_display_total (e : Error) :
    (∃ s, e.sourceErr = some s) ∧ e.display ≠ "" := by
  cases e with
  | Spawn source =>
      exact ⟨⟨source, rfl⟩, string_append_ne_empty _ _ (by decide)⟩
  | RuntimeBuild source =>
      exact ⟨⟨source, rfl⟩, string_append_ne_empty _ _ (by decide)⟩
  | CurrentThreadRun source =>
      exact ⟨⟨source, rfl⟩, string_append_ne_empty _ _ (by decide)⟩

/-- C3: for every task submitted through `Environment::spawn`, if the
scheduler rejects the task (e.g. it is shutting down, with underlying executor
error `src`), the spawn error `Error::Spawn` is surfaced to the caller of
spawn as the returned value; an accepted task yields `ok`. -/
theorem spawn_rejection_surfaced (src : String) :
    schedulerSpawn (some src) = .error (.Spawn src) ∧ schedulerSpawn none = .ok () := by
  exact ⟨rfl, rfl⟩

/-- C2: for every operation completing at virtual time `t1` with value `v` and
timeout firing at `t2`: the race yields the value when `t1 < t2`, the timeout
error when `t2 ≤ t1` (in particular on a tie `t1 = t2`), the inner operation is
cancelled/dropped exactly in the timeout case, and no double-completion is
possible (the outcome is never both the value and the timeout error). -/
theorem timeout_race_well_defined {α : Type} (t1 t2 : Nat) (v : α) :
    (t1 < t2 → timeoutRace t1 t2 v = (.value v, false)) ∧
    (t2 ≤ t1 → timeoutRace t1 t2 v = (.timedOut, true)) ∧
    (t1 = t2 → (timeoutRace t1 t2 v).1 = .timedOut) ∧
    ¬((timeoutRace t1 t2 v).1 = .value v ∧ (timeoutRace t1 t2 v).1 = .timedOut) := by
  unfold timeoutRace
  by_cases h : t1 < t2
  · simp only [if_pos h]
    exact ⟨fun _ => trivial, fun h2 => absurd h (by omega), fun he => absurd h (by omega), by simp⟩
  · simp only [if_neg h]
    exact ⟨fun hlt => absurd hlt h, fun _ => trivial, fun _ => trivial, by simp⟩

/-- Witness for C2 at `t1 = 5`, `t2 = 5`: the tie resolves to timeout and the
inner operation is dropped. -/
theorem timeout_race_well_defined_witness :
    (5 ≤ 5 ∧ timeoutRace 5 5 (7 : Nat) = (.timedOut, true)) ∧
    (3 < 9 ∧ timeoutRace 3 9 (7 : Nat) = (.value 7, false)) :=
  ⟨⟨le_refl 5, (timeout_race_well_defined 5 5 (7 : Nat)).2.1 (le_refl 5)⟩,
   ⟨by omega, (timeout_race_well_defined 3 9 (7 : Nat)).1 (by omega)⟩⟩

/-- C4, counterexample: the claim asserts that dropping the handle returned by
`spawn_with_result` does not cancel or otherwise affect the spawned task's
execution. Concretely, with the handle already dropped and a wrapped future
that would produce `42`, the claim predicts the remote still runs the wrapped
future. It does not: the remote completes without running it (the wrapped
future is dropped) and nothing is ever sent on the side-channel. -/
theorem spawn_with_result_drop_counterexample :
    ¬((pollRemote (42 : Nat) { handleDropped := true, sent := none }).2 = true) ∧
    (pollRemote (42 : Nat) { handleDropped := true, sent := none }).2 = false ∧
    handlePoll (pollRemote (42 : Nat) { handleDropped := true, sent := none }).1 = none := by
  decide

/-- C4, amended: the handle returned by `spawn_with_result` is a non-owning
reference used only to retrieve the result (its poll just reads the
side-channel), and, as long as the handle is held, once the spawned task
completes with value `v` the handle resolves with `v`; however dropping the
handle is not inert: it cancels the remote task, whose wrapped future is then
never run. `spawn_with_result` is exactly this remote/handle composition. -/
theorem spawn_with_result_handle (α : Type) (v : α) (s : RemoteState α) :
    (s.handleDropped = false →
      (pollRemote v s).1.sent = some v ∧ (pollRemote v s).2 = true ∧
      handlePoll (pollRemote v s).1 = some v) ∧
    (s.handleDropped = true → (pollRemote v s).2 = false ∧ (pollRemote v s).1 = s) ∧
    (∀ t : RemoteState α, handlePoll t = t.sent) ∧
    spawn_with_result α v = (pollRemote v, handlePoll) := by
  refine ⟨?_, ?_, fun t => rfl, rfl⟩
  · intro h
    simp [pollRemote, handlePoll, h]
  · intro h
    simp [pollRemote, h]

/-- Witness for C4 at a held handle and `v = 9`: the task's output reaches the
handle. -/
theorem spawn_with_result_handle_witness :
    (RemoteState.handleDropped { handleDropped := false, sent := (none : Option Nat) } = false) ∧
    ((pollRemote (9 : Nat) { handleDropped := false, sent := none }).1.sent = some 9 ∧
      (pollRemote (9 : Nat) { handleDropped := false, sent := none }).2 = true ∧
      handlePoll (pollRemote (9 : Nat) { handleDropped := false, sent := none }).1 = some 9) :=
  ⟨rfl, (spawn_with_result_handle Nat 9 { handleDropped := false, sent := none }).1 rfl⟩

/-- C6: binding an already-bound address fails with an ordinary already-in-use
error (and a fresh address succeeds); connecting to an unbound address fails
immediately with connection-refused (and a bound one succeeds, enqueuing the
pending connection); on an established connection, bytes written on one
endpoint are observed on the other in write order; a read with available bytes
returns them in order; and after either endpoint closes the connection, a read
on the other side (with the in-flight bytes drained) returns end-of-stream
while a write fails with broken pipe. -/
theorem connection_lifecycle :
    (∀ (r : Registry) (a : Nat), a ∈ r.bound → r.bind a = .error .addrInUse) ∧
    (∀ (r : Registry) (a : Nat), a ∉ r.bound →
      ∃ r2, r.bind a = .ok r2 ∧ a ∈ r2.bound) ∧
    (∀ (r : Registry) (a : Nat), a ∉ r.bound → r.connect a = .error .connRefused) ∧
    (∀ (r : Registry) (a : Nat), a ∈ r.bound →
      ∃ r2, r.connect a = .ok (r2, r.nextConn) ∧ (a, r.nextConn) ∈ r2.pending) ∧
    (∀ (c : Conn) (w1 w2 : List Nat), c.closed = false →
      ∃ c1 c2, c.write .A w1 = .ok c1 ∧ c1.write .A w2 = .ok c2 ∧
        inbox .B c2 = c.aToB ++ w1 ++ w2) ∧
    (∀ (c : Conn) (side : Side), (inbox side c).isEmpty = false →
      ∃ c2, c.read side = some (.bytes (inbox side c), c2)) ∧
    (∀ (c : Conn) (side : Side), (inbox side c).isEmpty = true →
      (c.close).read side = some (.eof, c.close)) ∧
    (∀ (c : Conn) (side : Side) (d : List Nat), (c.close).write side d = .error .brokenPipe) := by
  refine ⟨?_, ?_, ?_, ?_, ?_, ?_, ?_, ?_⟩
  · intro r a h
    simp [Registry.bind, h]
  · intro r a h
    refine ⟨{ r with bound := a :: r.bound }, ?_, ?_⟩
    · simp [Registry.bind, h]
    · simp
  · intro r a h
    simp [Registry.connect, h]
  · intro r a h
    refine ⟨{ r with pending := r.pending ++ [(a, r.nextConn)], nextConn := r.nextConn + 1 }, ?_, ?_⟩
    · simp [Registry.connect, h]
    · simp
  · intro c w1 w2 h
    refine ⟨{ c with aToB := c.aToB ++ w1 }, { c with aToB := c.aToB ++ w1 ++ w2 }, ?_, ?_, ?_⟩
    · simp [Conn.write, h]
    · simp [Conn.write, h]
    · simp [inbox]
  · intro c side h
    cases side <;> simp_all [Conn.read, inbox]
  · intro c side h
    cases side <;> simp_all [Conn.read, Conn.close, inbox]
  · intro c side d
    simp [Conn.write, Conn.close]

/-- Witness for C6 on a concrete registry and connection: address 1 is bound
so rebinding fails and connecting succeeds; address 2 is unbound so connecting
is refused; two writes are read back in order; and a closed connection yields
end-of-stream on read and broken pipe on write. -/
theorem connection_lifecycle_witness :
    ((1 : Nat) ∈ [1] ∧ Registry.bind { bound := [1], pending := [], nextConn := 0 } 1 = .error .addrInUse) ∧
    ((2 : Nat) ∉ [1] ∧ Registry.connect { bound := [1], pending := [], nextConn := 0 } 2 = .error .connRefused) ∧
    ((Conn.closed { aToB := [], bToA := [], closed := false }) = false ∧
      ∃ c1 c2, Conn.write { aToB := [], bToA := [], closed := false } .A [10, 11] = .ok c1 ∧
        c1.write .A [12] = .ok c2 ∧ inbox .B c2 = [10, 11, 12]) := by
  refine ⟨⟨by decide, (connection_lifecycle.1 _ 1 (by decide))⟩,
          ⟨by decide, (connection_lifecycle.2.2.1 _ 2 (by decide))⟩,
          ⟨rfl, ?_⟩⟩
  have h := connection_lifecycle.2.2.2.2.1 { aToB := [], bToA := [], closed := false } [10, 11] [12] rfl
  exact h

/-- Helper: on a schedule with no injector step, a fault state with no
injected latency and no disconnected stream never produces an observation with
injected effects (only injector steps mutate the fault state). -/
theorem frun_no_injected_effects (σ : List MStep) :
    ∀ s : FaultState, s.latency = [] → s.disconnected = [] →
      (∀ sid, MStep.injStep sid ∉ σ) →
      ∀ ob ∈ (frun s σ).2, ob.extraLatency = 0 ∧ ob.disconnect = false := by
  induction σ with
  | nil =>
      intro s _ _ _ ob hob
      simp [frun] at hob
  | cons m ms ih =>
      intro s hl hd hσ ob hob
      have hms : ∀ sid, MStep.injStep sid ∉ ms := by
        intro sid hmem
        exact hσ sid (List.mem_cons_of_mem _ hmem)
      cases m with
      | appOp a =>
          cases a with
          | read sid =>
              simp only [frun, fstep] at hob
              rcases List.mem_cons.mp hob with h | h
              · subst h
                constructor
                · simp [hl, lookupLatency, List.find?]
                · simp [hd]
              · exact ih s hl hd hms ob h
          | write sid =>
              simp only [frun, fstep] at hob
              rcases List.mem_cons.mp hob with h | h
              · subst h
                constructor
                · simp [hl, lookupLatency, List.find?]
                · simp [hd]
              · exact ih s hl hd hms ob h
      | injStep sid =>
          exact (hσ sid (List.mem_cons_self _ _)).elim

/-- C7: in a run whose schedule never contains a step of the fault-injector
task (the task obtained from `latency_fault()` was never spawned), no stream
read or write observes injected extra latency or an injected disconnect,
whatever the seed. -/
theorem no_faults_unless_injector_spawned (seed : Nat) (σ : List MStep)
    (hσ : ∀ sid, MStep.injStep sid ∉ σ) :
    ∀ ob ∈ (frun { latency := [], disconnected := [], rng := seed } σ).2,
      ob.extraLatency = 0 ∧ ob.disconnect = false :=
  frun_no_injected_effects σ _ rfl rfl hσ

/-- Helper: the step relation is realised by the step function. -/
theorem stepF_of_step {s t : SimState} (h : Step s t) : stepF s = some t := by
  cases h with
  | complete tid rest hr hp => simp [stepF, hr, hp]
  | delay tid rest d k hr hp => simp [stepF, hr, hp]
  | fault tid rest sid k hr hp => simp [stepF, hr, hp]
  | advance m hr hm => simp [stepF, hr, hm]

/-- Helper: the step function only takes steps of the step relation. -/
theorem step_of_stepF {s t : SimState} (h : stepF s = some t) : Step s t := by
  cases hr : s.runnable with
  | nil =>
      simp only [stepF, hr] at h
      cases hm : minDeadline s.timers with
      | none =>
          rw [hm] at h
          exact Option.noConfusion h
      | some m =>
          rw [hm] at h
          rw [← Option.some.inj h]
          exact Step.advance s m hr hm
  | cons tid rest =>
      simp only [stepF, hr] at h
      cases hp : lookupProg s.progs tid with
      | nil =>
          rw [hp] at h
          rw [← Option.some.inj h]
          exact Step.complete s tid rest hr hp
      | cons c k =>
          cases c with
          | delayFrom d =>
              rw [hp] at h
              rw [← Option.some.inj h]
              exact Step.delay s tid rest d k hr hp
          | drawFault sid =>
              rw [hp] at h
              rw [← Option.some.inj h]
              exact Step.fault s tid rest sid k hr hp

/-- Helper: the scheduler's execution policy determines at most one next
state: the step relation is deterministic. -/
theorem step_det {s t₁ t₂ : SimState} (h₁ : Step s t₁) (h₂ : Step s t₂) : t₁ = t₂ := by
  have e₁ := stepF_of_step h₁
  have e₂ := stepF_of_step h₂
  rw [e₁] at e₂
  exact Option.some.inj e₂

/-- Helper: a state where the step function yields nothing is stuck. -/
theorem stuck_of_none {s : SimState} (h : stepF s = none) : Stuck s := by
  intro t hst
  have he := stepF_of_step hst
  rw [h] at he
  exact Option.noConfusion he

/-- Helper: `runN` only takes steps of the run relation. -/
theorem runs_runN (n : Nat) (s : SimState) : Runs s (runN n s) := by
  induction n generalizing s with
  | zero => exact Runs.refl s
  | succ n ih =>
      cases hf : stepF s with
      | none =>
          simp only [runN, hf]
          exact Runs.refl s
      | some t =>
          simp only [runN, hf]
          exact Runs.step (step_of_stepF hf) (ih t)

/-- Helper: two runs from the same state that both end stuck end in the same
state (unique normal forms for a deterministic step relation). -/
theorem runs_det {a b : SimState} (h₁ : Runs a b) (hb : Stuck b) :
    ∀ {c : SimState}, Runs a c → Stuck c → b = c := by
  induction h₁ with
  | refl s =>
      intro c h₂ hc
      cases h₂ with
      | refl _ => rfl
      | step hst _ => exact (hb _ hst).elim
  | step hst hrest ih =>
      intro c h₂ hc
      cases h₂ with
      | refl _ => exact (hc _ hst).elim
      | step hst2 hrest2 =>
          have he := step_det hst hst2
          rw [← he] at hrest2
          exact ih hb hrest2 hc

/-- C1: for a fixed seed and a fixed, deterministic application program
(the same tasks issuing the same commands in the same order), any two complete
runs of the deterministic runtime reach the same final state; in particular
their traces — the task-completion order, the virtual-clock value at each
event, and the fault-injection decisions — are identical. -/
theorem deterministic_runs (seed : Nat) (prog : List (TaskId × List Cmd))
    (s₁ s₂ : SimState)
    (h₁ : Runs (initState seed prog) s₁) (hs₁ : Stuck s₁)
    (h₂ : Runs (initState seed prog) s₂) (hs₂ : Stuck s₂) :
    s₁.trace = s₂.trace ∧ s₁ = s₂ := by
  have he := runs_det h₁ hs₁ h₂ hs₂
  exact ⟨by rw [he], he⟩

/-- Witness for C1: the program with task 0 delaying 5 time units and task 1
drawing one fault decision, under seed 1, runs to a stuck state within 8
steps, and the determinism theorem applies to that run against itself. -/
theorem deterministic_runs_witness :
    Runs (initState 1 [(0, [Cmd.delayFrom 5]), (1, [Cmd.drawFault 0])])
      (runN 8 (initState 1 [(0, [Cmd.delayFrom 5]), (1, [Cmd.drawFault 0])])) ∧
    Stuck (runN 8 (initState 1 [(0, [Cmd.delayFrom 5]), (1, [Cmd.drawFault 0])])) ∧
    (runN 8 (initState 1 [(0, [Cmd.delayFrom 5]), (1, [Cmd.drawFault 0])])).trace
      = (runN 8 (initState 1 [(0, [Cmd.delayFrom 5]), (1, [Cmd.drawFault 0])])).trace := by
  have h := runs_runN 8 (initState 1 [(0, [Cmd.delayFrom 5]), (1, [Cmd.drawFault 0])])
  have hs : Stuck (runN 8 (initState 1 [(0, [Cmd.delayFrom 5]), (1, [Cmd.drawFault 0])])) :=
    stuck_of_none (by rfl)
  exact ⟨h, hs, (deterministic_runs 1 _ _ _ h hs h hs).1⟩

/-- Helper: a single scheduler step preserves the property that every timer
wake recorded in the trace happened at a clock value at or past its deadline
(the advance step wakes only due timers). -/
theorem step_woken_bound {s t : SimState} (hst : Step s t)
    (hs : ∀ tid D tt, Event.woken tid D tt ∈ s.trace → D ≤ tt) :
    ∀ tid D tt, Event.woken tid D tt ∈ t.trace → D ≤ tt := by
  cases hst with
  | complete tid rest hr hp =>
      intro a D tt hmem
      rcases List.mem_cons.mp hmem with h | h
      · cases h
      · exact hs a D tt h
  | delay tid rest d k hr hp =>
      intro a D tt hmem
      exact hs a D tt hmem
  | fault tid rest sid k hr hp =>
      intro a D tt hmem
      rcases List.mem_cons.mp hmem with h | h
      · cases h
      · exact hs a D tt h
  | advance m hr hm =>
      intro a D tt hmem
      rcases List.mem_append.mp hmem with h | h
      · rcases List.mem_map.mp h with ⟨p, hp2, he⟩
        have hdue := List.mem_filter.mp hp2
        have hle : p.1 ≤ m := of_decide_eq_true hdue.2
        cases he
        exact hle
      · rcases List.mem_cons.mp h with h2 | h2
        · cases h2
        · exact hs a D tt h2

/-- C9: in any run of the deterministic runtime from a state whose trace
records no premature wake (in particular from the initial state, whose trace
is empty), a task awaiting a delay with deadline `D` is never woken while the
virtual clock is below `D`: every wake recorded in the trace carries a clock
value at or past its deadline. -/
theorem no_spurious_wakeups (init s : SimState)
    (hinit : ∀ tid D t, Event.woken tid D t ∈ init.trace → D ≤ t)
    (h : Runs init s) :
    ∀ tid D t, Event.woken tid D t ∈ s.trace → D ≤ t := by
  induction h with
  | refl s => exact hinit
  | step hst hrest ih => exact ih (step_woken_bound hst hinit)

/-- Witness for C9: the run of a single task delaying 4 time units from seed
2; its initial trace is empty and every wake in the final trace is at or past
its deadline. -/
theorem no_spurious_wakeups_witness :
    (∀ tid D t, Event.woken tid D t ∈ (initState 2 [(0, [Cmd.delayFrom 4])]).trace → D ≤ t) ∧
    (∀ tid D t,
      Event.woken tid D t ∈ (runN 5 (initState 2 [(0, [Cmd.delayFrom 4])])).trace → D ≤ t) := by
  have hinit : ∀ tid D t, Event.woken tid D t ∈ (initState 2 [(0, [Cmd.delayFrom 4])]).trace → D ≤ t := by
    intro tid D t h
    cases h
  exact ⟨hinit,
    no_spurious_wakeups (initState 2 [(0, [Cmd.delayFrom 4])]) _ hinit
      (runs_runN 5 (initState 2 [(0, [Cmd.delayFrom 4])]))⟩

/-- C8: in every complete run of the deterministic runtime on the ordering
scenario — two tasks started at the same virtual instant, scheduling delays of
10 and 30 seconds respectively — the completion instant recorded for the
10-second task (10) is strictly less than the one recorded for the 30-second
task (30), whatever the seed. -/
theorem ordering_scenario (seed : Nat) (S : SimState)
    (h : Runs (orderingInit seed) S) (hS : Stuck S) :
    ∃ ta tb, completedAt S.trace 0 = some ta ∧ completedAt S.trace 1 = some tb ∧ ta < tb := by
  have hrun := runs_runN 7 (orderingInit seed)
  have hstuck : Stuck (runN 7 (orderingInit seed)) := stuck_of_none (by rfl)
  have he := runs_det h hS hrun hstuck
  rw [he]
  refine ⟨10, 30, ?_, ?_, ?_⟩
  · rfl
  · rfl
  · decide

/-- Witness for C8 at seed 0: the concrete run reaches a stuck state and the
two completion instants are 10 and 30. -/
theorem ordering_scenario_witness :
    Runs (orderingInit 0) (runN 7 (orderingInit 0)) ∧
    Stuck (runN 7 (orderingInit 0)) ∧
    (∃ ta tb, completedAt (runN 7 (orderingInit 0)).trace 0 = some ta ∧
      completedAt (runN 7 (orderingInit 0)).trace 1 = some tb ∧ ta < tb) := by
  have h := runs_runN 7 (orderingInit 0)
  have hs : Stuck (runN 7 (orderingInit 0)) := stuck_of_none (by rfl)
  exact ⟨h, hs, ordering_scenario 0 _ h hs⟩

/-- Witness for C7: a schedule of two reads and a write with no injector step,
from seed 3; every observation is unperturbed. -/
theorem no_faults_unless_injector_spawned_witness :
    (∀ sid, MStep.injStep sid ∉ [MStep.appOp (.read 0), MStep.appOp (.write 1), MStep.appOp (.read 1)]) ∧
    ∀ ob ∈ (frun { latency := [], disconnected := [], rng := 3 }
        [MStep.appOp (.read 0), MStep.appOp (.write 1), MStep.appOp (.read 1)]).2,
      ob.extraLatency = 0 ∧ ob.disconnect = false := by
  have hσ : ∀ sid, MStep.injStep sid ∉
      [MStep.appOp (.read 0), MStep.appOp (.write 1), MStep.appOp (.read 1)] := by
    intro sid h
    simp at h
  exact ⟨hσ, no_faults_unless_injector_spawned 3 _ hσ⟩

end Simulation
